import Mathlib

/- Shallow embedding of wsgikit (src/wsgikit/wsgikit.pyx): HTTP request body
   decoding for WSGI applications.  Byte strings and text strings are both
   modelled as lists of characters (the configured encoding is the identity
   on the ASCII data exercised here); Python dicts are insertion-ordered
   association lists; Python exceptions are an explicit error type threaded
   through Except.  State mutated by the decoder (the transient part table,
   the pending line fragment, quota counters, the spool directory) is an
   explicit record, and a raised exception carries the state at the moment
   of the raise, mirroring the fact that Python mutations performed before
   a raise persist. -/

abbrev Chars := List Char

def crlf : Chars := ['\r', '\n']

/- Python str.strip() whitespace set (the ASCII part). -/
def isPySpace (c : Char) : Bool :=
  c == ' ' || c == '\t' || c == '\n' || c == '\r' || c == Char.ofNat 11 || c == Char.ofNat 12

def pstrip (s : Chars) : Chars :=
  ((s.dropWhile isPySpace).reverse.dropWhile isPySpace).reverse

/- bytes.split(sep) / str.split(sep) for a one-character separator: keeps
   empty pieces, scans left to right. -/
def splitOnChar (sep : Char) : Chars → List Chars
  | [] => [[]]
  | c :: rest =>
    if c = sep then [] :: splitOnChar sep rest
    else
      match splitOnChar sep rest with
      | s :: ss => (c :: s) :: ss
      | [] => [[c]]

/- data.split(b"\x0d\x0a"): the CRLF split used by _parse_data_block. -/
def splitCRLF : Chars → List Chars
  | [] => [[]]
  | '\r' :: '\n' :: rest => [] :: splitCRLF rest
  | c :: rest =>
    match splitCRLF rest with
    | s :: ss => (c :: s) :: ss
    | [] => [[c]]

/- line.startswith(pat). -/
def bstarts : Chars → Chars → Bool
  | [], _ => true
  | _ :: _, [] => false
  | p :: ps, c :: cs => p == c && bstarts ps cs

/- data.endswith(b"\x0d\x0a"). -/
def bendsCRLF (s : Chars) : Bool :=
  match s.reverse with
  | '\n' :: '\r' :: _ => true
  | _ => false

/- line[:-2], stripping the line terminator owned by a following boundary. -/
def dropLast2 (s : Chars) : Chars := s.dropLast.dropLast

/- Insertion-ordered dictionaries as association lists: an existing key is
   updated in place (its position is kept, as for a Python dict), a new key
   is appended at the end. -/
def lookupAssoc {α β : Type} [DecidableEq α] : List (α × β) → α → Option β
  | [], _ => none
  | (k, v) :: rest, key => if key = k then some v else lookupAssoc rest key

def setAssoc {α β : Type} [DecidableEq α] : List (α × β) → α → β → List (α × β)
  | [], key, v => [(key, v)]
  | (k, w) :: rest, key, v =>
    if key = k then (k, v) :: rest else (k, w) :: setAssoc rest key v

def removeAssoc {α β : Type} [DecidableEq α] : List (α × β) → α → List (α × β)
  | [], _ => []
  | (k, w) :: rest, key => if key = k then rest else (k, w) :: removeAssoc rest key

/- Python int(string): surrounding whitespace, an optional sign, then a
   non-empty digit run (the integer literals occurring as bracket keys). -/
def digitsValGo : Chars → Nat → Option Nat
  | [], acc => some acc
  | d :: ds, acc => if d.isDigit then digitsValGo ds (acc * 10 + (d.toNat - 48)) else none

def digitsVal (s : Chars) : Option Nat :=
  match s with
  | [] => none
  | _ => digitsValGo s 0

def pyIntChars (s : Chars) : Option Int :=
  match pstrip s with
  | '-' :: ds => (digitsVal ds).map (fun n => -(n : Int))
  | '+' :: ds => (digitsVal ds).map (fun n => (n : Int))
  | ds => (digitsVal ds).map (fun n => (n : Int))

/- Keys of the nested field tree: Python ints or strings. -/
inductive Key where
  | int (n : Int)
  | str (s : Chars)
deriving DecidableEq

/- int(val) as applied by _get_next_key to a dict key: an int key is kept,
   a string key is parsed (ValueError is the none case). -/
def keyToInt : Key → Option Int
  | .int n => some n
  | .str s => pyIntChars s

/- The for-loop of HttpRequest._get_next_key, with its running `max`
   variable started at the sentinel -1. -/
def get_next_key_loop : List Key → Int → Int
  | [], m => m
  | k :: ks, m =>
    match keyToInt k with
    | none => get_next_key_loop ks m
    | some v =>
      if m = -1 then get_next_key_loop ks v
      else if v > m then get_next_key_loop ks v
      else get_next_key_loop ks m

/- HttpRequest._get_next_key(lst). -/
def get_next_key (ks : List Key) : Int :=
  let m := get_next_key_loop ks (-1)
  if m = -1 then 0 else m + 1

/- _rx_keys_lookup.findall(name) for the regex \[(.*?)\]: every bracket pair
   yields its (minimal) content; an unclosed bracket yields nothing. -/
def bracketScan : Chars → Option Chars → List Chars
  | [], _ => []
  | c :: rest, none =>
    if c = '[' then bracketScan rest (some []) else bracketScan rest none
  | c :: rest, some acc =>
    if c = ']' then acc.reverse :: bracketScan rest none
    else bracketScan rest (some (c :: acc))

def findBrackets (s : Chars) : List Chars := bracketScan s none

/- _rx_name_lookup.sub("\\1", name): the text before the first bracket. -/
def extractBase (s : Chars) : Chars := s.takeWhile (fun c => c != '[')

/- Uploaded-file record as inserted into FILES by _parse_to_files (the part
   dict after `name` and `handle` have been removed). -/
structure FileRec where
  headers : List (Chars × Chars)
  length : Nat
  filename : Chars
  mime : Option Chars
  tmpName : Chars
deriving DecidableEq

/- Scalar values stored at the leaves of a field tree: decoded strings for
   body/query parameters, uploaded-file records for FILES.  A file record is
   modelled as a leaf (in Python it is a dict, but no code path of the
   claims descends into one through _parse_param). -/
inductive FVal where
  | vstr (s : Chars)
  | vfile (f : FileRec)

/- A nested field tree node: a scalar leaf or an insertion-ordered dict. -/
inductive FNode where
  | leaf (v : FVal)
  | dict (entries : List (Key × FNode))

abbrev FTree := List (Key × FNode)

/- Python exceptions raised by the embedded code. -/
inductive PyErr where
  | keyError
  | typeError
  | attributeError
  | valueError
  | maxFilesError (limit : Nat)
  | maxFileSizeError (filename : Chars) (limit : Nat)
  | maxBodySizeError (limit : Nat)
  | filesUploadError
  | fileSaveError (filename : Chars) (path : Chars) (reason : Chars)
deriving DecidableEq

/- `key = int(key) except ValueError: pass` in _parse_param. -/
def coerceKey (s : Chars) : Key :=
  match pyIntChars s with
  | some n => Key.int n
  | none => Key.str s

/- The descent loop of _parse_param over the bracket keys, starting from the
   dict stored under the base name.  At each level the raw key is coerced,
   an empty key is replaced by the synthesized next index, a missing or
   non-dict intermediate slot is overwritten with a fresh empty dict, and
   the terminal key stores the value. -/
def descend : FTree → List Chars → FVal → FTree
  | entries, [], _ => entries
  | entries, rawk :: rest, v =>
    let k0 := coerceKey rawk
    let k := if k0 = Key.str [] then Key.int (get_next_key (entries.map Prod.fst)) else k0
    match rest with
    | [] => setAssoc entries k (FNode.leaf v)
    | _ :: _ =>
      let sub :=
        match lookupAssoc entries k with
        | some (FNode.dict es) => es
        | _ => []
      setAssoc entries k (FNode.dict (descend sub rest v))

/- HttpRequest._parse_param(name, value, param_dict).  When the base name
   already holds a scalar and bracket keys are present the Python code walks
   into the scalar and crashes: with an empty first key `tmp_dict.keys()`
   raises AttributeError, otherwise indexing / item assignment on the scalar
   raises TypeError. -/
def parse_param (name : Chars) (v : FVal) (tree : FTree) : Except PyErr FTree :=
  let pkeys := findBrackets name
  let base := Key.str (extractBase name)
  let tree0 := if (lookupAssoc tree base).isNone then setAssoc tree base (FNode.dict []) else tree
  match pkeys with
  | [] => .ok (setAssoc tree0 base (FNode.leaf v))
  | k0 :: _ =>
    match lookupAssoc tree0 base with
    | some (FNode.dict es) => .ok (setAssoc tree0 base (FNode.dict (descend es pkeys v)))
    | some (FNode.leaf _) =>
      .error (if coerceKey k0 = Key.str [] then PyErr.attributeError else PyErr.typeError)
    | none => .error PyErr.typeError

/- urllib.parse.unquote_plus restricted to single-byte escapes: `+` becomes
   a space and a valid %hh pair becomes the character with that code; an
   invalid escape is left as it is. -/
def hexVal (c : Char) : Option Nat :=
  if c.isDigit then some (c.toNat - 48)
  else if 'a' ≤ c ∧ c ≤ 'f' then some (c.toNat - 87)
  else if 'A' ≤ c ∧ c ≤ 'F' then some (c.toNat - 55)
  else none

def unquotePlus : Chars → Chars
  | [] => []
  | '+' :: rest => ' ' :: unquotePlus rest
  | '%' :: a :: b :: rest =>
    match hexVal a, hexVal b with
    | some ha, some hb => Char.ofNat (16 * ha + hb) :: unquotePlus rest
    | _, _ => '%' :: unquotePlus (a :: b :: rest)
  | c :: rest => c :: unquotePlus rest

/- One iteration of the loop in _parse_query_params: `name, value =
   param.split('=')` raises ValueError unless the split has exactly two
   pieces, then both halves are percent-decoded and inserted. -/
def qpStep (tree : FTree) (pair : Chars) : Except PyErr FTree :=
  match splitOnChar '=' pair with
  | [nm, vl] => parse_param (unquotePlus nm) (FVal.vstr (unquotePlus vl)) tree
  | _ => .error PyErr.valueError

def qpGo : List Chars → FTree → Except PyErr FTree
  | [], t => .ok t
  | p :: ps, t =>
    match qpStep t p with
    | .ok t2 => qpGo ps t2
    | .error e => .error e

/- HttpRequest._parse_query_params(params). -/
def parse_query_params (params : Chars) : Except PyErr FTree :=
  if params = [] then .ok [] else qpGo (splitOnChar '&' params) []

/- HttpRequest._normilize_key: lower-case, split on '-', capitalize each
   non-empty segment, re-join with '-'. -/
def capSeg : Chars → Chars
  | [] => []
  | c :: rest => c.toUpper :: rest

def normilizeKey (k : Chars) : Chars :=
  List.intercalate ['-'] ((splitOnChar '-' (k.map Char.toLower)).map capSeg)

/- HttpRequest._cleanup_value: strip a surrounding quote pair; because of
   the operator precedence in `(fch == lch) and (fch == '"') or (fch ==
   "'")`, a leading single quote strips first and last regardless. -/
def cleanupValue : Chars → Chars
  | [] => []
  | c :: rest =>
    if (c = (c :: rest).getLastD c ∧ c = '"') ∨ c = Char.ofNat 39
    then ((c :: rest).dropLast).drop 1
    else c :: rest

/- The character loop of _parse_key_value on one item: name is everything
   before the first delimiter, value everything after it. -/
def splitFirstOn (d : Char) : Chars → Chars × Chars
  | [] => ([], [])
  | c :: rest =>
    if c = d then ([], rest)
    else
      let p := splitFirstOn d rest
      (c :: p.1, p.2)

/- HttpRequest._parse_key_value(items, delimiter, normalize, cleanup).  An
   item whose raw name part is empty is skipped; otherwise name and value
   are stripped and post-processed and stored (later duplicates win). -/
def parseKeyValue (items : List Chars) (delim : Char) (normalize cleanup : Bool) :
    List (Chars × Chars) :=
  items.foldl
    (fun acc item =>
      let p := splitFirstOn delim item
      if p.1 = [] then acc
      else
        let nm := pstrip p.1
        let vl := pstrip p.2
        let nm := if normalize then normilizeKey nm else nm
        let vl := if cleanup then cleanupValue vl else vl
        setAssoc acc nm vl)
    []

/- A transient multipart part record (self._parts[i]); optional fields model
   dict keys that may be absent or hold None, hasHandle models the presence
   of the open spool handle. -/
structure MPart where
  headers : List (Chars × Chars)
  length : Nat
  name : Option Chars
  filename : Option Chars
  mime : Option Chars
  data : Option Chars
  tmpName : Option Chars
  hasHandle : Bool
deriving DecidableEq

def newPart : MPart :=
  { headers := [], length := 0, name := none, filename := none, mime := none,
    data := none, tmpName := none, hasHandle := false }

/- Decoder configuration (the HttpRequest constructor arguments that the
   multipart path reads).  spoolFails is the storage oracle: when true, the
   open/write of a spool file raises an exception whose message is spoolErr.
   gen is the temp-name oracle replacing the time/random/md5 digest, indexed
   by the number of spool files created so far. -/
structure HConfig where
  filesUploadOn : Bool
  uploadedFilesDir : Chars
  maxUploadedFiles : Nat
  maxFilesize : Nat
  maxContentLength : Nat
  filePfx : Chars
  spoolFails : Bool
  spoolErr : Chars
  gen : Nat → Chars

/- Mutable decoder state: the transient attributes of HttpRequest created by
   _parse_multipart, together with the spool directory contents and the
   FILES/BODY result trees. -/
structure MState where
  parts : List (Nat × MPart)
  lastLine : Chars
  filesCounter : Nat
  bodyLength : Nat
  spoolCount : Nat
  disk : List (Chars × Chars)
  files : FTree
  body : FTree

def initMState : MState :=
  { parts := [], lastLine := [], filesCounter := 0, bodyLength := 0,
    spoolCount := 0, disk := [], files := [], body := [] }

/- A raised exception carries the state at the raise (Python mutations made
   before the raise persist). -/
abbrev MRes := Except (PyErr × MState) MState

/- Python call semantics for FileSaveError(...): its __init__ takes
   (filename, path, reason), so an argument list of any other length raises
   TypeError instead of constructing the error.  The raise site in
   _handle_part_line passes exactly two arguments. -/
def callFileSaveError : List Chars → PyErr
  | [f, p, r] => PyErr.fileSaveError f p r
  | _ => PyErr.typeError

/- One header line processed by the is_new_part loop of _parse_data_block:
   parse `name: value`, create the part record on first contact, merge the
   header, record mime, and parse Content-Disposition for Filename (counted
   against maxUploadedFiles) and Name. -/
def processHeaderLine (cfg : HConfig) (st : MState) (idx : Nat) (line : Chars) : MRes :=
  let hdr := parseKeyValue [pstrip line] ':' true false
  let part :=
    match lookupAssoc st.parts idx with
    | some p => p
    | none => newPart
  let part := { part with headers := hdr.foldl (fun a kv => setAssoc a kv.1 kv.2) part.headers }
  let part :=
    match lookupAssoc hdr ("Content-Type").data with
    | some v => { part with mime := some v }
    | none => part
  match lookupAssoc hdr ("Content-Disposition").data with
  | none => .ok { st with parts := setAssoc st.parts idx part }
  | some dv =>
    let dispo := parseKeyValue (splitOnChar ';' dv) '=' true true
    match lookupAssoc dispo ("Filename").data with
    | some fv =>
      let part := { part with filename := some fv }
      let fc := st.filesCounter + 1
      let st2 := { st with parts := setAssoc st.parts idx part, filesCounter := fc }
      if fc > cfg.maxUploadedFiles then .error (PyErr.maxFilesError cfg.maxUploadedFiles, st2)
      else
        let part :=
          match lookupAssoc dispo ("Name").data with
          | some nv => { part with name := some nv }
          | none => part
        .ok { st2 with parts := setAssoc st2.parts idx part }
    | none =>
      let part :=
        match lookupAssoc dispo ("Name").data with
        | some nv => { part with name := some nv }
        | none => part
      .ok { st with parts := setAssoc st.parts idx part }

/- HttpRequest._handle_part_line(line, part_idx).  self._parts[part_idx]
   raises KeyError when no such part exists.  For a file part the length is
   updated before the size check; spool creation is lazy and only happens
   when uploads are enabled; a storage failure is caught and re-raised
   through the two-argument FileSaveError call.  For a non-file part the
   body quota is checked before the line is appended to the data buffer. -/
def handlePartLine (cfg : HConfig) (st : MState) (line : Chars) (idx : Nat) : MRes :=
  match lookupAssoc st.parts idx with
  | none => .error (PyErr.keyError, st)
  | some part =>
    match part.filename with
    | some fname =>
      let part2 := { part with length := part.length + line.length }
      let st2 := { st with parts := setAssoc st.parts idx part2 }
      if part2.length > cfg.maxFilesize then
        .error (PyErr.maxFileSizeError fname cfg.maxFilesize, st2)
      else if cfg.filesUploadOn then
        match part2.tmpName with
        | none =>
          if cfg.spoolFails then .error (callFileSaveError [fname, cfg.spoolErr], st2)
          else
            let tname := cfg.filePfx ++ cfg.gen st2.spoolCount
            let path := cfg.uploadedFilesDir ++ ('/' :: tname)
            let part3 := { part2 with tmpName := some tname, hasHandle := true }
            .ok { st2 with parts := setAssoc st2.parts idx part3,
                           spoolCount := st2.spoolCount + 1,
                           disk := setAssoc st2.disk path line }
        | some tname =>
          if cfg.spoolFails then .error (callFileSaveError [fname, cfg.spoolErr], st2)
          else
            let path := cfg.uploadedFilesDir ++ ('/' :: tname)
            let old := (lookupAssoc st2.disk path).getD []
            .ok { st2 with disk := setAssoc st2.disk path (old ++ line) }
      else .error (PyErr.filesUploadError, st2)
    | none =>
      let part2 :=
        match part.data with
        | none => { part with data := some [] }
        | some _ => part
      let bl := st.bodyLength + line.length
      let st2 := { st with parts := setAssoc st.parts idx part2, bodyLength := bl }
      if bl > cfg.maxContentLength then .error (PyErr.maxBodySizeError cfg.maxContentLength, st2)
      else
        let part3 := { part2 with data := some ((part2.data.getD []) ++ line) }
        .ok { st2 with parts := setAssoc st2.parts idx part3 }

/- The line loop of _parse_data_block.  mode=true is the is_new_part header
   loop (a bare CRLF line ends the headers); mode=false dispatches boundary
   lines and body lines, stripping the terminator of the single line that
   immediately precedes a boundary. -/
def runLines (cfg : HConfig) (pb lb : Chars) :
    List Chars → Bool → MState → Nat → MRes
  | [], _, st, _ => .ok st
  | line :: rest, true, st, idx =>
    if line = crlf then runLines cfg pb lb rest false st idx
    else
      match processHeaderLine cfg st idx line with
      | .ok st2 => runLines cfg pb lb rest true st2 idx
      | .error e => .error e
  | line :: rest, false, st, idx =>
    if bstarts lb line then .ok st
    else if bstarts pb line then runLines cfg pb lb rest true st (idx + 1)
    else
      let line2 :=
        match rest with
        | nl :: _ => if bstarts pb nl then dropLast2 line else line
        | [] => line
      match handlePartLine cfg st line2 idx with
      | .ok st2 => runLines cfg pb lb rest false st2 idx
      | .error e => .error e

/- HttpRequest._parse_data_block(data, boundary, data_length).  The pending
   fragment is prepended and the result split on CRLF.  When the block holds
   no complete line at all (a single piece), the fragment is cleared and the
   unterminated data is handled as a part line immediately.  Otherwise an
   unterminated last piece is deferred into lastLine, terminators are
   re-appended and the line loop runs. -/
def parseDataBlock (cfg : HConfig) (boundary : Chars) (st : MState) (chunk : Chars) : MRes :=
  let pb := '-' :: '-' :: boundary
  let lb := pb ++ ['-', '-']
  let idx := st.parts.length
  let data := st.lastLine ++ chunk
  let lines := splitCRLF data
  match lines with
  | [_] => handlePartLine cfg { st with lastLine := [] } data idx
  | _ =>
    let pr :=
      if bendsCRLF data then (lines, st)
      else (lines.dropLast, { st with lastLine := lines.getLastD [] })
    let lines3 := pr.1.map (fun l => l ++ crlf)
    runLines cfg pb lb lines3 false pr.2 idx

def parseDataBlocks (cfg : HConfig) (boundary : Chars) : List Chars → MState → MRes
  | [], st => .ok st
  | c :: cs, st =>
    match parseDataBlock cfg boundary st c with
    | .ok st2 => parseDataBlocks cfg boundary cs st2
    | .error e => .error e

/- HttpRequest._parse_to_files, iterating over a snapshot of the part keys.
   A file part with empty filename and zero length is discarded: its handle
   is closed (KeyError when none was ever created), its spool file silently
   removed.  An empty filename with data adopts the temp name.  The part is
   then inserted into FILES keyed by its Name (None makes _parse_param raise
   TypeError), after closing the handle (KeyError when absent). -/
def parseToFilesGo (cfg : HConfig) : List Nat → MState → MRes
  | [], st => .ok st
  | k :: rest, st =>
    match lookupAssoc st.parts k with
    | none => .error (PyErr.keyError, st)
    | some part =>
      match part.filename with
      | none => parseToFilesGo cfg rest st
      | some fn =>
        if fn = [] ∧ part.length = 0 then
          if part.hasHandle then
            let st2 :=
              match part.tmpName with
              | some t => { st with disk := removeAssoc st.disk (cfg.uploadedFilesDir ++ ('/' :: t)) }
              | none => st
            parseToFilesGo cfg rest { st2 with parts := removeAssoc st2.parts k }
          else .error (PyErr.keyError, st)
        else
          match (if fn = [] then part.tmpName else some fn) with
          | none => .error (PyErr.keyError, st)
          | some fn2 =>
            if part.hasHandle then
              match part.name with
              | none => .error (PyErr.typeError, st)
              | some nm =>
                let frec : FileRec :=
                  { headers := part.headers, length := part.length, filename := fn2,
                    mime := part.mime, tmpName := part.tmpName.getD [] }
                match parse_param nm (FVal.vfile frec) st.files with
                | .error e => .error (e, st)
                | .ok files2 =>
                  parseToFilesGo cfg rest { st with files := files2, parts := removeAssoc st.parts k }
            else .error (PyErr.keyError, st)

/- HttpRequest._parse_to_body: every remaining non-file part is decoded and
   inserted into BODY keyed by its Name; a part that never saw a body line
   has no data key (KeyError), a missing Name makes _parse_param raise
   TypeError. -/
def parseToBodyGo : List Nat → MState → MRes
  | [], st => .ok st
  | k :: rest, st =>
    match lookupAssoc st.parts k with
    | none => .error (PyErr.keyError, st)
    | some part =>
      match part.filename with
      | some _ => parseToBodyGo rest st
      | none =>
        match part.data with
        | none => .error (PyErr.keyError, st)
        | some d =>
          match part.name with
          | none => .error (PyErr.typeError, st)
          | some nm =>
            match parse_param nm (FVal.vstr d) st.body with
            | .error e => .error (e, st)
            | .ok b2 => parseToBodyGo rest { st with body := b2, parts := removeAssoc st.parts k }

/- HttpRequest._parse_multipart(instream, boundary, content_length), with
   the successive instream.read results supplied as the chunk list. -/
def parseMultipart (cfg : HConfig) (chunks : List Chars) (boundary : Chars) : MRes :=
  match parseDataBlocks cfg boundary chunks initMState with
  | .error e => .error e
  | .ok st =>
    match parseToFilesGo cfg (st.parts.map Prod.fst) st with
    | .error e => .error e
    | .ok st2 =>
      match parseToBodyGo (st2.parts.map Prod.fst) st2 with
      | .error e => .error e
      | .ok st3 => .ok st3

/- Result projections. -/
def decodeErr : MRes → Option PyErr
  | .error (e, _) => some e
  | .ok _ => none

def decodeBody : MRes → Option FTree
  | .ok st => some st.body
  | .error _ => none

def decodeFiles : MRes → Option FTree
  | .ok st => some st.files
  | .error _ => none

def decodeDisk : MRes → List (Chars × Chars)
  | .ok st => st.disk
  | .error (_, st) => st.disk

def errState : MRes → Option MState
  | .error (_, st) => some st
  | .ok _ => none

/- The six parameter storages of an HttpRequest instance. -/
structure Storages where
  SERVER : FTree
  HEADERS : FTree
  QUERY : FTree
  BODY : FTree
  COOKIE : FTree
  FILES : FTree

/- getattr(self, storage) restricted to the storage attributes; an unknown
   name raises AttributeError. -/
def getattrStorage (r : Storages) (s : Chars) : Option FTree :=
  if s = ("SERVER").data then some r.SERVER
  else if s = ("HEADERS").data then some r.HEADERS
  else if s = ("QUERY").data then some r.QUERY
  else if s = ("BODY").data then some r.BODY
  else if s = ("COOKIE").data then some r.COOKIE
  else if s = ("FILES").data then some r.FILES
  else none

/- HttpRequest.getenv(storage, key, default_value).  When key is None the
   function returns default_value at once; otherwise an empty storage or a
   missing (raw) key returns default_value, then for HEADERS the key is
   normalized before the final lookup. -/
def getenv (r : Storages) (storage : Chars) (key : Option Chars) (dfl : Option FNode) :
    Except PyErr (Option FNode) :=
  match getattrStorage r storage with
  | none => .error PyErr.attributeError
  | some env =>
    match key with
    | none => .ok dfl
    | some k =>
      if env.isEmpty then .ok dfl
      else if (lookupAssoc env (Key.str k)).isNone then .ok dfl
      else
        let k2 := if storage = ("HEADERS").data then normilizeKey k else k
        match lookupAssoc env (Key.str k2) with
        | some v => .ok (some v)
        | none => .ok dfl

/- The public accessors; each forwards to getenv for its storage. -/
def header (r : Storages) (name : Option Chars) (dfl : Option FNode) : Except PyErr (Option FNode) :=
  getenv r (("HEADERS").data) name dfl

def body (r : Storages) (name : Option Chars) (dfl : Option FNode) : Except PyErr (Option FNode) :=
  getenv r (("BODY").data) name dfl

def query (r : Storages) (name : Option Chars) (dfl : Option FNode) : Except PyErr (Option FNode) :=
  getenv r (("QUERY").data) name dfl

def cookie (r : Storages) (name : Option Chars) (dfl : Option FNode) : Except PyErr (Option FNode) :=
  getenv r (("COOKIE").data) name dfl

def file (r : Storages) (name : Option Chars) (dfl : Option FNode) : Except PyErr (Option FNode) :=
  getenv r (("FILES").data) name dfl

def server (r : Storages) (name : Option Chars) (dfl : Option FNode) : Except PyErr (Option FNode) :=
  getenv r (("SERVER").data) name dfl

/- Concrete decode fixtures used by the scenario theorems below. -/
def genName (n : Nat) : Chars := 't' :: List.replicate n 'x'

def cfg0 : HConfig :=
  { filesUploadOn := true, uploadedFilesDir := ("/tmp").data, maxUploadedFiles := 20,
    maxFilesize := 2097152, maxContentLength := 8388608, filePfx := ("http-upload-").data,
    spoolFails := false, spoolErr := [], gen := genName }

def cfg4 : HConfig := { cfg0 with maxContentLength := 4 }

def cfgNoUp : HConfig := { cfg0 with filesUploadOn := false }

def cfgFail : HConfig := { cfg0 with spoolFails := true, spoolErr := ("disk full").data }

/- One text field `field1` with value `hello`. -/
def bodyField : Chars :=
  ("--b\r\nContent-Disposition: form-data; name=\"field1\"\r\n\r\nhello\r\n--b--\r\n").data

/- A file part with empty filename and an empty body line (the canonical
   form of an empty optional upload). -/
def bodyEmptyFileOk : Chars :=
  ("--b\r\nContent-Disposition: form-data; name=\"f\"; filename=\"\"\r\n\r\n\r\n--b--\r\n").data

/- A file part with empty filename whose header block is immediately
   followed by the closing boundary: no body line is ever handled. -/
def bodyEmptyFileBad : Chars :=
  ("--b\r\nContent-Disposition: form-data; name=\"f\"; filename=\"\"\r\n\r\n--b--\r\n").data

/- A file part named `f` with filename a.txt and four payload bytes. -/
def bodyFilePart : Chars :=
  ("--b\r\nContent-Disposition: form-data; name=\"f\"; filename=\"a.txt\"\r\n\r\ndata\r\n--b--\r\n").data

def bnd : Chars := ("b").data

def oneByteChunks (s : Chars) : List Chars := s.map (fun c => [c])

def treeField : FTree :=
  [(Key.str (("field1").data), FNode.leaf (FVal.vstr (("hello").data)))]

/- ------------------------------------------------------------------ -/
/- Claim theorems. -/
/- ------------------------------------------------------------------ -/

/-- C1: chunk-boundary independence fails.  Decoding `bodyField` as a single
chunk succeeds with BODY = {field1: "hello"} and FILES = {}, but feeding the
very same byte stream one byte at a time raises KeyError on the first chunk:
the single-piece path of _parse_data_block clears the pending fragment and
handles the unterminated fragment as a part line immediately, while no part
is open yet, instead of deferring it to the next call.  The decode result
therefore depends on how the stream is split into chunks. -/
theorem c1_chunk_boundary_dependence :
    decodeBody (parseMultipart cfg0 [bodyField] bnd) = some treeField
    ∧ decodeFiles (parseMultipart cfg0 [bodyField] bnd) = some []
    ∧ decodeErr (parseMultipart cfg0 (oneByteChunks bodyField) bnd) = some PyErr.keyError :=
  ⟨rfl, rfl, rfl⟩

/-- C4: the url-encoded input foo[][bar]=1&foo[][baz]=2&foo[xyz]=777 decodes
to {foo: {0: {bar: "1"}, 1: {baz: "2"}, xyz: "777"}}: integer auto-keys 0
and 1 in insertion order, with the string key "xyz" alongside them. -/
theorem c4_bracket_scenario :
    parse_query_params (("foo[][bar]=1&foo[][baz]=2&foo[xyz]=777").data)
      = .ok [(Key.str (("foo").data),
          FNode.dict
            [(Key.int 0, FNode.dict [(Key.str (("bar").data), FNode.leaf (FVal.vstr (("1").data)))]),
             (Key.int 1, FNode.dict [(Key.str (("baz").data), FNode.leaf (FVal.vstr (("2").data)))]),
             (Key.str (("xyz").data), FNode.leaf (FVal.vstr (("777").data)))])] :=
  rfl

/-- C5: the discard rule for an empty optional upload.  When the part has an
empty filename, zero accumulated bytes and an opened spool file
(bodyEmptyFileOk), the part is dropped from FILES and its spool file is
removed from disk.  But when the part's header block is immediately
followed by the closing boundary (bodyEmptyFileBad) no body line is ever
handled, no spool handle exists, and finalization crashes with KeyError on
part['handle'] instead of completing normally as the claim states. -/
theorem c5_discard_rule :
    decodeFiles (parseMultipart cfg0 [bodyEmptyFileOk] bnd) = some []
    ∧ decodeDisk (parseMultipart cfg0 [bodyEmptyFileOk] bnd) = []
    ∧ decodeErr (parseMultipart cfg0 [bodyEmptyFileBad] bnd) = some PyErr.keyError :=
  ⟨rfl, rfl, rfl⟩

/-- C2 counterexample: with integer keys -1 and -5 already present (in that
insertion order) the next auto-key synthesized for foo[] is -4, not
1 + max {-1, -5} = 0 as the claim states: the -1 sentinel of _get_next_key
is reset by the key -1, so the later key -5 is treated as a fresh maximum. -/
theorem c2_negative_keys_cex :
    parse_query_params (("foo[-1]=a&foo[-5]=b&foo[]=c").data)
      = .ok [(Key.str (("foo").data),
          FNode.dict
            [(Key.int (-1), FNode.leaf (FVal.vstr (("a").data))),
             (Key.int (-5), FNode.leaf (FVal.vstr (("b").data))),
             (Key.int (-4), FNode.leaf (FVal.vstr (("c").data)))])]
    ∧ get_next_key [Key.int (-1), Key.int (-5)] = -4 :=
  ⟨rfl, rfl⟩

/-- C3 counterexample: when the base name itself already holds a scalar, the
scalar is not overwritten with a container; _parse_param walks into the
scalar and the decode fails with TypeError, so decoding foo=1&foo[bar]=2
errors instead of producing {foo: {bar: "2"}}. -/
theorem c3_base_scalar_cex :
    parse_query_params (("foo=1&foo[bar]=2").data) = .error PyErr.typeError :=
  rfl

/-- C8 counterexample: a pair with two '=' characters does not split on the
first '=' only; `name, value = param.split('=')` unpacks three pieces and
raises ValueError, so a=b=c fails the decode instead of yielding
{a: "b=c"}. -/
theorem c8_first_equals_cex :
    parse_query_params (("a=b=c").data) = .error PyErr.valueError :=
  rfl

/-- C9 counterexample: with uploads disabled, a multipart body containing a
file part (empty filename) whose header block is immediately followed by
the closing boundary fails with KeyError at finalization, not with
FilesUploadError as the claim states for every body containing a file
part. -/
theorem c9_no_bodyline_cex :
    decodeErr (parseMultipart cfgNoUp [bodyEmptyFileBad] bnd) = some PyErr.keyError
    ∧ decodeErr (parseMultipart cfgNoUp [bodyEmptyFileBad] bnd) ≠ some PyErr.filesUploadError :=
  ⟨rfl, by decide⟩

/-- C6: the non-file body quota is enforced incrementally.  Whenever a body
line is appended to an open non-file part and the cumulative non-file byte
count would exceed maxContentLengthBytes, _handle_part_line raises
MaxBodySizeError(limit) at once; and the concrete multipart body with one
text field field1 = "hello" decoded under maxContentLengthBytes = 4 fails
with MaxBodySizeError(4). -/
theorem c6_body_quota :
    (∀ (cfg : HConfig) (st : MState) (line : Chars) (idx : Nat) (part : MPart),
      lookupAssoc st.parts idx = some part → part.filename = none →
      cfg.maxContentLength < st.bodyLength + line.length →
      decodeErr (handlePartLine cfg st line idx) = some (PyErr.maxBodySizeError cfg.maxContentLength))
    ∧ decodeErr (parseMultipart cfg4 [bodyField] bnd) = some (PyErr.maxBodySizeError 4) := by
  constructor
  · intro cfg st line idx part h1 h2 h3
    simp only [handlePartLine, h1, h2]
    rw [if_pos h3]
    rfl
  · rfl

def partW6 : MPart := { newPart with name := some (("field1").data) }

def stW6 : MState := { initMState with parts := [(1, partW6)] }

theorem c6_body_quota_witness :
    decodeErr (handlePartLine cfg4 stW6 (("hello").data) 1)
      = some (PyErr.maxBodySizeError cfg4.maxContentLength) :=
  c6_body_quota.1 cfg4 stW6 (("hello").data) 1 partW6 rfl rfl (by decide)

/-- C7: a storage failure while creating or writing a spool file does not
abort the decode with FileSaveError(filename, path, reason): the raise site
passes only two arguments to FileSaveError whose constructor requires
three, so the call itself raises TypeError.  The general statement covers
any state in which a file-part body line is handled with failing storage,
and the concrete decode of a file part under failing storage ends in
TypeError. -/
theorem c7_file_save_arity :
    (∀ (cfg : HConfig) (st : MState) (line : Chars) (idx : Nat) (part : MPart) (fn : Chars),
      lookupAssoc st.parts idx = some part → part.filename = some fn →
      part.length + line.length ≤ cfg.maxFilesize →
      cfg.filesUploadOn = true → cfg.spoolFails = true →
      decodeErr (handlePartLine cfg st line idx) = some PyErr.typeError)
    ∧ decodeErr (parseMultipart cfgFail [bodyFilePart] bnd) = some PyErr.typeError := by
  constructor
  · intro cfg st line idx part fn h1 h2 h3 h4 h5
    simp only [handlePartLine, h1, h2]
    rw [if_neg (by omega), if_pos h4]
    cases htm : part.tmpName with
    | none => simp [htm, h5, callFileSaveError, decodeErr]
    | some t => simp [htm, h5, callFileSaveError, decodeErr]
  · rfl

def partW7 : MPart :=
  { newPart with filename := some (("a.txt").data), name := some (("f").data) }

def stW7 : MState := { initMState with parts := [(1, partW7)] }

theorem c7_file_save_arity_witness :
    decodeErr (handlePartLine cfgFail stW7 (("data").data) 1) = some PyErr.typeError :=
  c7_file_save_arity.1 cfgFail stW7 (("data").data) 1 partW7 (("a.txt").data)
    rfl rfl (by decide) rfl rfl

def cfgNoUpSmall : HConfig := { cfg0 with filesUploadOn := false, maxFilesize := 2 }

/-- C9 (amended): when filesUploadOn is false, handling any body line of a
file part aborts the decode without touching the spool directory: with
FilesUploadError when the part's accumulated bytes stay within
maxFileSizeBytes, and with MaxFileSizeError(filename, limit) when they
exceed it, because the per-file size check precedes the uploads-disabled
check in _handle_part_line.  Concretely, the decode of a file part with a
body line under disabled uploads fails with FilesUploadError (with
MaxFileSizeError under a 2-byte file quota), leaves the disk empty and
leaves BODY and FILES with no entry.  (A file part with no handled body
line instead crashes with KeyError at finalization, see the
counterexample.) -/
theorem c9_files_disabled_amended :
    (∀ (cfg : HConfig) (st : MState) (line : Chars) (idx : Nat) (part : MPart) (fn : Chars),
      cfg.filesUploadOn = false →
      lookupAssoc st.parts idx = some part → part.filename = some fn →
      decodeErr (handlePartLine cfg st line idx)
          = some (if part.length + line.length > cfg.maxFilesize
                  then PyErr.maxFileSizeError fn cfg.maxFilesize
                  else PyErr.filesUploadError)
        ∧ decodeDisk (handlePartLine cfg st line idx) = st.disk)
    ∧ (decodeErr (parseMultipart cfgNoUp [bodyFilePart] bnd) = some PyErr.filesUploadError
       ∧ decodeDisk (parseMultipart cfgNoUp [bodyFilePart] bnd) = []
       ∧ (errState (parseMultipart cfgNoUp [bodyFilePart] bnd)).map MState.files = some []
       ∧ (errState (parseMultipart cfgNoUp [bodyFilePart] bnd)).map MState.body = some []
       ∧ decodeErr (parseMultipart cfgNoUpSmall [bodyFilePart] bnd)
           = some (PyErr.maxFileSizeError (("a.txt").data) 2)
       ∧ decodeDisk (parseMultipart cfgNoUpSmall [bodyFilePart] bnd) = []) := by
  constructor
  · intro cfg st line idx part fn h0 h1 h2
    by_cases hsz : part.length + line.length > cfg.maxFilesize
    · constructor <;> simp [handlePartLine, h1, h2, hsz, decodeErr, decodeDisk]
    · constructor <;> simp [handlePartLine, h1, h2, hsz, h0, decodeErr, decodeDisk]
  · exact ⟨rfl, rfl, rfl, rfl, rfl, rfl⟩

theorem c9_files_disabled_amended_witness :
    decodeErr (handlePartLine { cfg0 with filesUploadOn := false } stW7 (("data").data) 1)
        = some (if partW7.length + (("data").data).length
                    > ({ cfg0 with filesUploadOn := false } : HConfig).maxFilesize
                then PyErr.maxFileSizeError (("a.txt").data)
                  ({ cfg0 with filesUploadOn := false } : HConfig).maxFilesize
                else PyErr.filesUploadError)
      ∧ decodeDisk (handlePartLine { cfg0 with filesUploadOn := false } stW7 (("data").data) 1)
        = stW7.disk :=
  c9_files_disabled_amended.1 { cfg0 with filesUploadOn := false } stW7 (("data").data) 1
    partW7 (("a.txt").data) rfl rfl rfl

/-- C10: getenv with key None returns the default value (None when omitted)
for every storage name — an unknown storage name raises AttributeError
before the key is inspected — and hence each of the no-argument accessor
forms header(), body(), query(), cookie(), file(), server() returns the
default value, never the storage dictionary itself, although their
docstrings promise the entire storage. -/
theorem c10_getenv_default :
    (∀ (r : Storages) (s : Chars) (dfl : Option FNode),
      getenv r s none dfl = .error PyErr.attributeError ∨ getenv r s none dfl = .ok dfl)
    ∧ (∀ (r : Storages) (dfl : Option FNode),
      header r none dfl = .ok dfl ∧ body r none dfl = .ok dfl ∧ query r none dfl = .ok dfl
      ∧ cookie r none dfl = .ok dfl ∧ file r none dfl = .ok dfl ∧ server r none dfl = .ok dfl) := by
  constructor
  · intro r s dfl
    unfold getenv
    cases h : getattrStorage r s with
    | none => exact Or.inl rfl
    | some env => exact Or.inr rfl
  · intro r dfl
    exact ⟨rfl, rfl, rfl, rfl, rfl, rfl⟩

/- The maximum of the int()-convertible keys of a level, with -1 for none:
   the value the spec intends _get_next_key's loop to compute. -/
def intMaxKeys : List Key → Int
  | [] => -1
  | k :: ks =>
    match keyToInt k with
    | some v => max v (intMaxKeys ks)
    | none => intMaxKeys ks

theorem intMaxKeys_ge_neg_one : ∀ ks : List Key, -1 ≤ intMaxKeys ks := by
  intro ks
  induction ks with
  | nil => simp [intMaxKeys]
  | cons k ks ih =>
    simp only [intMaxKeys]
    cases keyToInt k with
    | none => exact ih
    | some v => exact le_trans ih (le_max_right v _)

/- With only non-negative convertible keys the sentinel -1 of the loop is
   unambiguous and the loop computes the running maximum. -/
theorem gnk_loop_eq :
    ∀ ks : List Key, (∀ k ∈ ks, ∀ v, keyToInt k = some v → 0 ≤ v) →
      ∀ acc : Int, -1 ≤ acc → get_next_key_loop ks acc = max acc (intMaxKeys ks) := by
  intro ks
  induction ks with
  | nil =>
    intro _ acc hacc
    simp only [get_next_key_loop, intMaxKeys, max_def]
    split_ifs <;> omega
  | cons k ks ih =>
    intro hnn acc hacc
    have hk : ∀ v, keyToInt k = some v → 0 ≤ v := hnn k (List.mem_cons_self k ks)
    have hnn2 : ∀ k2 ∈ ks, ∀ v, keyToInt k2 = some v → 0 ≤ v :=
      fun k2 hm => hnn k2 (List.mem_cons_of_mem k hm)
    have hM := intMaxKeys_ge_neg_one ks
    cases hkv : keyToInt k with
    | none =>
      simp only [get_next_key_loop, intMaxKeys, hkv]
      exact ih hnn2 acc hacc
    | some v =>
      have hv : 0 ≤ v := hk v hkv
      simp only [get_next_key_loop, intMaxKeys, hkv]
      by_cases hA : acc = -1
      · rw [if_pos hA, ih hnn2 v (by omega), hA]
        simp only [max_def]
        split_ifs <;> omega
      · rw [if_neg hA]
        by_cases hG : v > acc
        · rw [if_pos hG, ih hnn2 v (by omega)]
          simp only [max_def]
          split_ifs <;> omega
        · rw [if_neg hG, ih hnn2 acc hacc]
          simp only [max_def]
          split_ifs <;> omega

/-- Modelled from the spec: for an empty bracket segment the next integer
key is one plus the maximum of the existing integer keys at the level, or
1 + (-1) = 0 when there are none. -/
def specNextKey (ks : List Key) : Int :=
  1 + (ks.filterMap (fun k => match k with | Key.int n => some n | Key.str _ => none)).foldr max (-1)

theorem intMaxKeys_eq_spec :
    ∀ ks : List Key, (∀ s, Key.str s ∈ ks → pyIntChars s = none) →
      intMaxKeys ks
        = (ks.filterMap (fun k => match k with | Key.int n => some n | Key.str _ => none)).foldr max (-1) := by
  intro ks
  induction ks with
  | nil => intro _; rfl
  | cons k ks ih =>
    intro hstr
    have hstr2 : ∀ s, Key.str s ∈ ks → pyIntChars s = none :=
      fun s hm => hstr s (List.mem_cons_of_mem k hm)
    cases k with
    | int n =>
      simp only [intMaxKeys, keyToInt, List.filterMap_cons, List.foldr]
      rw [ih hstr2]
    | str s =>
      have hs := hstr s (List.mem_cons_self _ ks)
      simp only [intMaxKeys, keyToInt, hs, List.filterMap_cons, List.foldr]
      exact ih hstr2

/-- C2 (amended): for a level whose existing integer keys are all
non-negative (as auto-indexing itself produces) and whose string keys are
not integer literals (as _parse_param guarantees below the top level, since
it coerces integer-literal segments to int before storing), the key
synthesized for an empty bracket segment, get_next_key, equals the
spec-modelled 1 + max(existing integer keys, or -1 if none); non-empty
segments are used verbatim with integer-literal coercion.  With negative
integer keys present the sentinel -1 of the loop can be reset and the
result may differ (see the counterexample: keys -1, -5 yield -4, not 0). -/
theorem c2_next_key_amended :
    ∀ ks : List Key,
      (∀ n, Key.int n ∈ ks → 0 ≤ n) →
      (∀ s, Key.str s ∈ ks → pyIntChars s = none) →
      get_next_key ks = specNextKey ks := by
  intro ks hint hstr
  have hnn : ∀ k ∈ ks, ∀ v, keyToInt k = some v → 0 ≤ v := by
    intro k hm v hv
    cases k with
    | int n =>
      simp only [keyToInt, Option.some.injEq] at hv
      have := hint n hm
      omega
    | str s =>
      rw [keyToInt, hstr s hm] at hv
      cases hv
  have hM := intMaxKeys_ge_neg_one ks
  have hloop := gnk_loop_eq ks hnn (-1) (by omega)
  have hspec := intMaxKeys_eq_spec ks hstr
  unfold get_next_key specNextKey
  rw [hloop, ← hspec]
  simp only [max_def]
  split_ifs <;> omega

theorem c2_next_key_amended_witness :
    get_next_key [Key.int 0, Key.int 2] = specNextKey [Key.int 0, Key.int 2] :=
  c2_next_key_amended [Key.int 0, Key.int 2]
    (by intro n h; simp at h; omega)
    (by intro s h; simp at h)

theorem coerceKey_ne_nil {s : Chars} (h : s ≠ []) : coerceKey s ≠ Key.str [] := by
  unfold coerceKey
  cases hp : pyIntChars s with
  | some n => simp
  | none => simpa using h

/-- C3 (amended): the collision-overwrite policy holds at the bracket
segments of a path: whenever a non-terminal bracket segment (with a
non-empty raw key) addresses a slot that already holds a scalar leaf, the
scalar is overwritten with a fresh empty container and the descent
proceeds.  It does not hold at the base name before the first bracket:
when the base name itself already holds a scalar and the path has bracket
segments, _parse_param fails with a type/attribute error instead of
replacing the scalar with a container. -/
theorem c3_collision_amended :
    (∀ (es : FTree) (rawk r : Chars) (rs : List Chars) (v w : FVal),
      rawk ≠ [] → lookupAssoc es (coerceKey rawk) = some (FNode.leaf w) →
      descend es (rawk :: r :: rs) v
        = setAssoc es (coerceKey rawk) (FNode.dict (descend [] (r :: rs) v)))
    ∧ (∀ (nm : Chars) (v : FVal) (tree : FTree) (w : FVal),
      findBrackets nm ≠ [] → lookupAssoc tree (Key.str (extractBase nm)) = some (FNode.leaf w) →
      ∃ e, parse_param nm v tree = .error e) := by
  constructor
  · intro es rawk r rs v w hne hlk
    have hk := coerceKey_ne_nil hne
    simp only [descend]
    rw [if_neg hk, hlk]
  · intro nm v tree w hbr hlk
    cases hp : findBrackets nm with
    | nil => exact absurd hp hbr
    | cons k0 ks =>
      refine ⟨if coerceKey k0 = Key.str [] then PyErr.attributeError else PyErr.typeError, ?_⟩
      simp only [parse_param, hp, hlk, Option.isNone_some, Bool.false_eq_true, if_false]

theorem c3_collision_amended_witness :
    descend [(Key.str (("k").data), FNode.leaf (FVal.vstr (("s").data)))]
        [("k").data, ("m").data] (FVal.vstr (("2").data))
      = setAssoc [(Key.str (("k").data), FNode.leaf (FVal.vstr (("s").data)))]
          (coerceKey (("k").data))
          (FNode.dict (descend [] [("m").data] (FVal.vstr (("2").data))))
    ∧ ∃ e, parse_param (("foo[bar]").data) (FVal.vstr (("2").data))
        [(Key.str (("foo").data), FNode.leaf (FVal.vstr (("1").data)))] = .error e :=
  ⟨c3_collision_amended.1 _ _ _ [] _ (FVal.vstr (("s").data)) (by decide) rfl,
   c3_collision_amended.2 _ _ _ (FVal.vstr (("1").data)) (by decide) rfl⟩

theorem qpGo_err :
    ∀ (ps : List Chars) (t : FTree),
      (∃ p ∈ ps, (splitOnChar '=' p).length ≠ 2) → ∃ e, qpGo ps t = .error e := by
  intro ps
  induction ps with
  | nil =>
    intro t h
    rcases h with ⟨p, hp, _⟩
    cases hp
  | cons p ps ih =>
    intro t h
    rcases h with ⟨q, hq, hlen⟩
    rcases List.mem_cons.mp hq with hq1 | hq2
    · subst hq1
      have hstep : qpStep t q = .error PyErr.valueError := by
        unfold qpStep
        cases hsp : splitOnChar '=' q with
        | nil => rfl
        | cons a l1 =>
          cases l1 with
          | nil => rfl
          | cons b l2 =>
            cases l2 with
            | nil => exact absurd (by rw [hsp]; rfl) hlen
            | cons c l3 => rfl
      exact ⟨PyErr.valueError, by simp [qpGo, hstep]⟩
    · cases hstep : qpStep t p with
      | error e => exact ⟨e, by simp [qpGo, hstep]⟩
      | ok t2 =>
        rcases ih t2 ⟨q, hq2, hlen⟩ with ⟨e, he⟩
        exact ⟨e, by simp [qpGo, hstep, he]⟩

/-- C8 (amended): a pair of a non-empty url-encoded body must contain
exactly one '=' to decode; whenever any pair produced by splitting the body
on '&' does not split on '=' into exactly a name and a value — it contains
no '=' at all, or two or more — the whole decode fails with an error
rather than silently dropping the pair (all-or-nothing decoding).  Text
after the first '=' is not all assigned to the value: a second '=' in a
pair is a structural error too (see the counterexample a=b=c). -/
theorem c8_pairs_all_or_nothing :
    ∀ s : Chars, s ≠ [] →
      (∃ p ∈ splitOnChar '&' s, (splitOnChar '=' p).length ≠ 2) →
      ∃ e, parse_query_params s = .error e := by
  intro s hne hbad
  unfold parse_query_params
  rw [if_neg hne]
  exact qpGo_err _ _ hbad

theorem c8_pairs_all_or_nothing_witness :
    ∃ e, parse_query_params (("a").data) = .error e :=
  c8_pairs_all_or_nothing (("a").data) (by decide)
    ⟨("a").data, by decide, by decide⟩
